import Mathlib

/-!
# Verification of the rails-console-mcp session manager (src/index.ts)

A shallow embedding of the interactive Rails-console session manager:
ANSI control-sequence stripping (`stripAnsi` / `ANSI_REGEX`), prompt
recognition (`PROMPT_REGEX`), the bounded output buffer (the stdout data
handler), command execution (`executeCommand`), session startup (`start`),
the public entry (`exec`), the process close handler, and the MCP
call-handler's per-call timeout override.

Strings are modelled as `List Char` (one element per Unicode scalar; the
JS sources manipulate strings whose relevant characters are all in the
BMP, where this coincides with UTF-16 code units).  Subprocess I/O is
external and nondeterministic: each spawn attempt and each command wait
is driven by an explicit environment value describing what the outside
world did (pod discovery result, spawn exception, accumulated output,
whether the prompt was observed in time).
-/

/-- JS strings, one entry per character. -/
abbrev Str := List Char

/-- Character class `[0-9;?]` from `ANSI_REGEX`. -/
def isCsiParam (c : Char) : Bool := c.isDigit || c = ';' || c = '?'

/-- JS `.` (dot without the `s` flag) refuses exactly the ECMAScript line
terminators. -/
def isJsLineTerm (c : Char) : Bool :=
  c = '\n' || c = '\r' || c = '\u2028' || c = '\u2029'

/-- A character the non-greedy `.*?` of `\x1b\].*?\x07` may consume: any
non-terminator that is not the closing BEL. -/
def isOscBody (c : Char) : Bool := !(c = '\x07') && !(isJsLineTerm c)

/--
`stripAnsi` (src/index.ts:35-37): global replacement of
`ANSI_REGEX = /\x1b\[[0-9;?]*[A-Za-z]|\x1b\].*?\x07/g` with the empty
string.  The scan walks left to right; at each position the first
alternative (`ESC [ params letter`) is tried, then the second
(`ESC ] body BEL`); a match is deleted and the scan resumes after it,
otherwise the character is kept.  Both alternatives are deterministic:
`[0-9;?]*` cannot consume a letter and `.*?` stops at the first BEL (and
cannot cross a line terminator).  The fuel argument is the remaining
input length, a strict bound on the number of steps, so the fuel-0 case
is only reached on the empty input.
-/
def stripAnsiFuel : Nat → Str → Str
  | 0, s => s
  | fuel + 1, s =>
    match s with
    | [] => []
    | c :: rest =>
      if c = '\x1b' then
        match rest with
        | '[' :: r2 =>
          let ps := r2.takeWhile isCsiParam
          match r2.drop ps.length with
          | d :: tail =>
            if d.isAlpha then stripAnsiFuel fuel tail
            else c :: stripAnsiFuel fuel rest
          | [] => c :: stripAnsiFuel fuel rest
        | ']' :: r2 =>
          let body := r2.takeWhile isOscBody
          match r2.drop body.length with
          | d :: tail =>
            if d = '\x07' then stripAnsiFuel fuel tail
            else c :: stripAnsiFuel fuel rest
          | [] => c :: stripAnsiFuel fuel rest
        | _ => c :: stripAnsiFuel fuel rest
      else c :: stripAnsiFuel fuel rest

/-- `stripAnsi(str)` from src/index.ts:35-37. -/
def stripAnsi (s : Str) : Str := stripAnsiFuel s.length s

/-- JS `\d`: `[0-9]`. -/
def isJsDigit (c : Char) : Bool := c.isDigit

/-- JS `\w`: `[A-Za-z0-9_]`. -/
def isJsWord (c : Char) : Bool := c.isAlpha || c.isDigit || c = '_'

/--
First `PROMPT_REGEX` alternative (src/index.ts:43), matched against the
whole remaining text (the regex is anchored to end-of-text by `$`):
`irb\([^)]+\):\d+:\d+[>*] ?`.  Each greedy class is followed by a
character it cannot contain, so matching is deterministic: `[^)]+` runs
to the first `)`, each `\d+` to the first non-digit, and the optional
trailing space must exhaust the text.
-/
def matchIrbPrompt (l : Str) : Bool :=
  match l with
  | 'i' :: 'r' :: 'b' :: '(' :: rest =>
    let a := rest.takeWhile (fun c => !(c = ')'))
    if a.isEmpty then false
    else
      match rest.drop a.length with
      | ')' :: ':' :: r2 =>
        let d1 := r2.takeWhile isJsDigit
        if d1.isEmpty then false
        else
          match r2.drop d1.length with
          | ':' :: r3 =>
            let d2 := r3.takeWhile isJsDigit
            if d2.isEmpty then false
            else
              match r3.drop d2.length with
              | c :: tail => (c = '>' || c = '*') && (tail = [] || tail = [' '])
              | [] => false
          | _ => false
      | _ => false
  | _ => false

/--
Second `PROMPT_REGEX` alternative: `\[\d+\] [^>]+> ` anchored at
end-of-text.  `[^>]+` (which may span newlines) runs to the first `>`,
which must be followed by exactly one space and the end of the text.
-/
def matchBracketPrompt (l : Str) : Bool :=
  match l with
  | '[' :: rest =>
    let d := rest.takeWhile isJsDigit
    if d.isEmpty then false
    else
      match rest.drop d.length with
      | ']' :: ' ' :: r2 =>
        let m := r2.takeWhile (fun c => !(c = '>'))
        !m.isEmpty && r2.drop m.length = ['>', ' ']
      | _ => false
  | _ => false

/--
Third `PROMPT_REGEX` alternative: `[^>\n]+\(\w+\)> ` anchored at
end-of-text.  The text must end in `)> `; the `\w+` group is the maximal
word-character run just before that `)` (the character before it must be
`(`, which is not a word character, so no other split can match); the
prefix before `(` must be nonempty and free of `>` and `\n`.
-/
def matchCustomPrompt (l : Str) : Bool :=
  match l.reverse with
  | ' ' :: '>' :: ')' :: rest =>
    let w := rest.takeWhile isJsWord
    if w.isEmpty then false
    else
      match rest.drop w.length with
      | '(' :: p => !p.isEmpty && p.all (fun c => !(c = '>') && !(c = '\n'))
      | _ => false
  | _ => false

/-- The parenthesised alternation of `PROMPT_REGEX`, in source order. -/
def promptAlt (l : Str) : Bool :=
  matchIrbPrompt l || matchBracketPrompt l || matchCustomPrompt l

/--
`PROMPT_REGEX.match` position: the leftmost index whose character is the
leading `\n` of `/\n(alt1|alt2|alt3)$/` with the rest of the text matched
by one of the alternatives.  `some i` models a match with
`match.index = i`; `none` models no match (`PROMPT_REGEX.test` false).
-/
def promptMatchIndex : Str → Option Nat
  | [] => none
  | c :: rest =>
    if c = '\n' && promptAlt rest then some 0
    else (promptMatchIndex rest).map (· + 1)

/-- `PROMPT_REGEX.test(s)` (used by `waitForPrompt`, src/index.ts:215). -/
def promptTest (s : Str) : Bool := (promptMatchIndex s).isSome

/-- The completion check of `waitForPrompt` (src/index.ts:212-218): strip
ANSI sequences from the live buffer, then test `PROMPT_REGEX`. -/
def detectorComplete (buffer : Str) : Bool := promptTest (stripAnsi buffer)

/-- `ExecResult` (src/index.ts:12-16): `error` is an optional field. -/
structure ExecResult where
  success : Bool
  output : Str
  error : Option String
deriving Repr, DecidableEq

/-- `Config.mode` (src/index.ts:19). -/
inductive Mode
  | docker
  | kubectl
deriving Repr, DecidableEq

/-- `Config` (src/index.ts:18-31).  Numeric fields are naturals: they are
parsed from environment variables as integers and only compared or
divided here. -/
structure Config where
  mode : Mode
  container : String
  kubeContext : String
  kubeNamespace : String
  kubeSelector : String
  kubeContainer : String
  commandTimeout : Nat
  inactivityTimeout : Nat
  maxOutput : Nat
deriving Repr

/-- JS `s.slice(-n)` for a natural `n`: the trailing `n` characters,
except that `-0` is `0` in JS, so `slice(-0)` is `slice(0)`, the whole
string.  For `n` at least the length, JS clamps to the whole string,
which `List.drop` of a truncated-subtraction zero also yields. -/
def jsSliceLast (s : Str) (n : Nat) : Str :=
  if n = 0 then s else s.drop (s.length - n)

/-- The stdout data handler (src/index.ts:91-97): append the chunk, then
if the accumulated length exceeds `maxOutput`, keep
`buffer.slice(-maxOutput)`. -/
def bufferAppend (maxOutput : Nat) (buf chunk : Str) : Str :=
  let b := buf ++ chunk
  if b.length > maxOutput then jsSliceLast b maxOutput else b

/-- Strip trailing `'0'` characters (for decimal fraction rendering). -/
def stripTrailingZeros (l : Str) : Str :=
  (l.reverse.dropWhile (fun c => c = '0')).reverse

/-- Left-pad a digit string to three places with `'0'`. -/
def padThree (l : Str) : Str := List.replicate (3 - l.length) '0' ++ l

/-- The template interpolation `${tMillis / 1000}` of
src/index.ts:181,188: JS float division rendered in shortest decimal
form, which for `tMillis` in the exactly-representable range is the
integer part, then, when the remainder is nonzero, a point and the
three-digit remainder with trailing zeros dropped. -/
def fmtSeconds (tMillis : Nat) : String :=
  if tMillis % 1000 = 0 then toString (tMillis / 1000)
  else
    toString (tMillis / 1000) ++ "." ++
      String.mk (stripTrailingZeros (padThree (toString (tMillis % 1000)).toList))

/-- Message of src/index.ts:188 (timeout, no successful restart). -/
def timedOutMsg (cfg : Config) : String :=
  "Command timed out after " ++ fmtSeconds cfg.commandTimeout ++ "s"

/-- Message of src/index.ts:181 (timeout, session restarted). -/
def timedOutRestartedMsg (cfg : Config) : String :=
  "Command timed out after " ++ fmtSeconds cfg.commandTimeout ++ "s. Session restarted."

/-- The mutable `RailsConsole` fields the claims are about
(src/index.ts:46-50): `process` is `null` or a live handle (the handle
itself carries no data the model needs), `buffer` the accumulated
stdout, `hasRestarted` the restart-consumed flag.  The inactivity timer
is wall-clock machinery outside the model. -/
structure SessState where
  process : Option Unit
  buffer : Str
  hasRestarted : Bool
deriving Repr, DecidableEq

/-- What the outside world does during one `start()` attempt
(src/index.ts:69-119): the kubectl pod-discovery result, whether
`spawn` threw, the stdout accumulated by the time the initial
`waitForPrompt` resolved, and whether it resolved true (prompt seen
within the startup timeout). -/
structure StartEnv where
  discoveredPod : Option String
  spawnFault : Option String
  bootBuffer : Str
  bootReady : Bool

/-- `buildSpawnArgs` (src/index.ts:121-147): docker mode always yields a
command line; kubectl mode fails (`null`) when pod discovery found
nothing. -/
def buildSpawnArgs (cfg : Config) (pod : Option String) :
    Option (String × List String) :=
  match cfg.mode with
  | .docker =>
    some ("docker",
      ["exec", "-i", cfg.container,
       "bundle", "exec", "rails", "console", "--", "--nomultiline"])
  | .kubectl =>
    match pod with
    | none => none
    | some podName =>
      some ("kubectl",
        ["exec", "-i",
         "--context", cfg.kubeContext,
         "--namespace", cfg.kubeNamespace,
         "-c", cfg.kubeContainer,
         podName, "--",
         "bundle", "exec", "rails", "console", "--", "--nomultiline"])

/-- `start()` (src/index.ts:69-119).  No spawn args: fail, state
untouched.  `spawn` throwing: caught, fail, state untouched (the
assignment to `this.process` never ran).  Otherwise the handle is set,
the buffer cleared and then filled with the boot output; if the initial
prompt was seen the buffer is cleared again, the restart flag reset and
the call succeeds; else `kill()` nulls the handle and the call fails
with the startup-timeout message, the boot output left in the buffer.
Every failure returns `output: ''`. -/
def start (cfg : Config) (env : StartEnv) (s : SessState) : ExecResult × SessState :=
  match buildSpawnArgs cfg env.discoveredPod with
  | none => (⟨false, [], some "Failed to build spawn arguments"⟩, s)
  | some _ =>
    match env.spawnFault with
    | some msg => (⟨false, [], some ("Failed to start: " ++ msg)⟩, s)
    | none =>
      if env.bootReady then
        (⟨true, [], none⟩, ⟨some (), [], false⟩)
      else
        (⟨false, [], some "Timeout waiting for Rails console to start"⟩,
         ⟨none, env.bootBuffer, s.hasRestarted⟩)

/-- One command's interaction with the subprocess
(src/index.ts:169-190): either `waitForPrompt` resolved true with `buf`
the buffer at that moment, or it resolved false — per-command timeout
elapsed, or the close handler nulled the handle mid-wait (crash) — with
`pbuf` the partial buffer. -/
inductive CmdOutcome
  | completes (buf : Str)
  | timesOut (pbuf : Str)

/-- Environment for one `executeCommand` call: the command's outcome and,
should the restart path run, the environment of that `start()` attempt. -/
structure CmdEnv where
  outcome : CmdOutcome
  restartEnv : StartEnv

/-- Lines 192-195: `cleanBuffer.match(PROMPT_REGEX)` then
`slice(0, match.index)`, else the whole cleaned text. -/
def extractResponse (clean : Str) : Str :=
  match promptMatchIndex clean with
  | some i => clean.take i
  | none => clean

/-- `p` occurs at the start of `l` (the anchored `^Name` test on one line). -/
def startsWith : Str → Str → Bool
  | [], _ => true
  | _ :: _, [] => false
  | a :: p, b :: l => a = b && startsWith p l

/-- `needle` occurs contiguously somewhere in `hay`. -/
def containsStr (needle : Str) : Str → Bool
  | [] => startsWith needle []
  | c :: rest => startsWith needle (c :: rest) || containsStr needle rest

/-- The alternation of `/^(SyntaxError|NameError|NoMethodError|ArgumentError|TypeError|RuntimeError|StandardError)/m`. -/
def rubyErrorNames : List Str :=
  ["SyntaxError", "NameError", "NoMethodError", "ArgumentError",
   "TypeError", "RuntimeError", "StandardError"].map String.toList

/-- The literal of `/^Traceback \(most recent call last\)/m`. -/
def tracebackHeader : Str := "Traceback (most recent call last)".toList

/-- Split at the ECMAScript line terminators (`'\n'`, `'\r'`, U+2028,
U+2029); the starts of the resulting lines are exactly the positions
where a multiline-flag `^` can match in JS — the start of the string or
the position right after any line terminator. -/
def splitLines : Str → List Str
  | [] => [[]]
  | c :: rest =>
    let ls := splitLines rest
    if isJsLineTerm c then [] :: ls
    else
      match ls with
      | h :: t => (c :: h) :: t
      | [] => [[c]]

/-- `hasError` (src/index.ts:198-199): some line starts with one of the
fixed exception names, or some line starts with the traceback header. -/
def hasRubyError (out : Str) : Bool :=
  (splitLines out).any fun ln =>
    rubyErrorNames.any (fun e => startsWith e ln) || startsWith tracebackHeader ln

/-- JS `String.prototype.trim` whitespace, restricted to the code points
that occur in this program's data (ASCII whitespace, NBSP, BOM, the two
Unicode line separators). -/
def isJsTrimWhite (c : Char) : Bool :=
  c = ' ' || c = '\t' || c = '\n' || c = '\r' || c = '\x0b' || c = '\x0c' ||
  c = '\u00a0' || c = '\ufeff' || c = '\u2028' || c = '\u2029'

/-- JS `.trim()` (src/index.ts:203). -/
def jsTrim (s : Str) : Str :=
  ((s.dropWhile isJsTrimWhite).reverse.dropWhile isJsTrimWhite).reverse

/-- `executeCommand` (src/index.ts:161-206).  Dead handle: immediate "No
active session".  Otherwise the buffer is cleared, the code written, and
the wait's outcome inspected.  Completion: extract the response from the
ANSI-stripped buffer, classify, trim.  Timeout/crash: `kill()`, then if
the restart flag is clear, set it and run `start()`; a successful
restart returns the ". Session restarted." message, otherwise the plain
timeout message — in both timeout results `output` is `this.buffer` as
left by the restart attempt (or by the kill when no restart ran). -/
def executeCommand (cfg : Config) (env : CmdEnv) (s : SessState) :
    ExecResult × SessState :=
  match s.process with
  | none => (⟨false, [], some "No active session"⟩, s)
  | some _ =>
    match env.outcome with
    | .completes buf =>
      let clean := stripAnsi buf
      let output := extractResponse clean
      let hasErr := hasRubyError output
      (⟨!hasErr, jsTrim output,
        if hasErr then some "Ruby error (see output)" else none⟩,
       { s with buffer := buf })
    | .timesOut pbuf =>
      let s1 : SessState := { s with buffer := pbuf, process := none }
      if !s1.hasRestarted then
        let s2 : SessState := { s1 with hasRestarted := true }
        let rs := start cfg env.restartEnv s2
        if rs.1.success then
          (⟨false, rs.2.buffer, some (timedOutRestartedMsg cfg)⟩, rs.2)
        else
          (⟨false, rs.2.buffer, some (timedOutMsg cfg)⟩, rs.2)
      else
        (⟨false, s1.buffer, some (timedOutMsg cfg)⟩, s1)

/-- Environment for one `exec` call: the lazy-start attempt (used only
when the handle is absent on entry) and the command interaction. -/
structure ExecEnv where
  lazyStart : StartEnv
  cmd : CmdEnv

/-- `exec` (src/index.ts:54-67), the body run under the mutex: lazy
start when the handle is absent (a failed start returned as-is, the
command never written), then `executeCommand`.  The inactivity-timer
reset between the two has no effect on any modelled field. -/
def exec (cfg : Config) (env : ExecEnv) (s : SessState) : ExecResult × SessState :=
  match s.process with
  | none =>
    let rs := start cfg env.lazyStart s
    if !rs.1.success then rs
    else executeCommand cfg env.cmd rs.2
  | some _ => executeCommand cfg env.cmd s

/-- The `close` handler (src/index.ts:83-88): log to stderr when the
exit code differs from 0 (a `null` code from a signal kill, `none` here,
also logs), and null the handle unconditionally.  Returns the new state
and whether the diagnostic was written. -/
def handleClose (exitCode : Option Int) (s : SessState) : SessState × Bool :=
  ({ s with process := none }, !(exitCode = some 0))

/-- The timeout handling of the `CallToolRequestSchema` handler
(src/index.ts:330-335): `if (timeout) config.commandTimeout = timeout`
(JS truthiness — an override of 0 is ignored), `await session.exec`,
then `config.commandTimeout = originalTimeout` — a plain statement after
the `await`, not a `finally`, so it is skipped when the awaited call
rejects (`execFaults`).  Returns the `commandTimeout` in force during
the `exec` call and the `commandTimeout` after the handler completes or
throws. -/
def handlerTimeouts (configured : Nat) (tOverride : Option Nat)
    (execFaults : Bool) : Nat × Nat :=
  let during :=
    match tOverride with
    | some t => if t = 0 then configured else t
    | none => configured
  if execFaults then (during, during) else (during, configured)

/-- The default docker configuration (`loadConfig` defaults,
src/index.ts:261-278). -/
def cfgDocker : Config :=
  ⟨.docker, "web", "", "default", "", "web", 60000, 7200000, 1048576⟩

/-- A Ready session: live handle, empty buffer, restart flag clear. -/
def readyState : SessState := ⟨some (), [], false⟩

/-- A spawn attempt that boots and reaches the initial IRB prompt. -/
def spawnOk : StartEnv :=
  ⟨none, none, "Loading development environment\nirb(main):001:0> ".toList, true⟩

/-- A spawn attempt whose `spawn` call throws. -/
def spawnBoom : StartEnv := ⟨none, some "spawn docker ENOENT", [], false⟩

/-- A lazy-start environment for calls made on a Ready session, where the
lazy-start branch is never taken. -/
def unusedStart : StartEnv := ⟨none, none, [], false⟩

theorem promptMatchIndex_sound :
    ∀ {s : Str} {i : Nat}, promptMatchIndex s = some i →
      s[i]? = some '\n' ∧ promptAlt (s.drop (i + 1)) = true := by
  intro s
  induction s with
  | nil => intro i h; simp [promptMatchIndex] at h
  | cons c rest ih =>
    intro i h
    simp only [promptMatchIndex] at h
    split at h
    · rename_i hc
      obtain rfl : (0 : Nat) = i := Option.some.inj h
      simp only [Bool.and_eq_true, decide_eq_true_eq] at hc
      simp [hc.1, hc.2]
    · rename_i hc
      obtain ⟨j, hj, rfl⟩ := Option.map_eq_some'.mp h
      obtain ⟨h1, h2⟩ := ih hj
      exact ⟨by simpa using h1, by simpa using h2⟩

theorem promptMatchIndex_minimal :
    ∀ {s : Str} {i : Nat}, promptMatchIndex s = some i →
      ∀ j, j < i → ¬(s[j]? = some '\n' ∧ promptAlt (s.drop (j + 1)) = true) := by
  intro s
  induction s with
  | nil => intro i h; simp [promptMatchIndex] at h
  | cons c rest ih =>
    intro i h j hj
    simp only [promptMatchIndex] at h
    split at h
    · obtain rfl : (0 : Nat) = i := Option.some.inj h
      omega
    · rename_i hc
      obtain ⟨k, hk, rfl⟩ := Option.map_eq_some'.mp h
      match j with
      | 0 =>
        rintro ⟨h1, h2⟩
        simp only [List.getElem?_cons_zero, Option.some.injEq] at h1
        simp only [List.drop_succ_cons, List.drop_zero] at h2
        exact hc (by simp [h1, h2])
      | j' + 1 =>
        rintro ⟨h1, h2⟩
        exact ih hk j' (by omega) ⟨by simpa using h1, by simpa using h2⟩

theorem promptTest_some :
    ∀ {s : Str}, promptTest s = true → ∃ i, promptMatchIndex s = some i := by
  intro s h
  unfold promptTest at h
  exact Option.isSome_iff_exists.mp h

theorem promptMatchIndex_isSome :
    ∀ {s : Str} {i : Nat}, s[i]? = some '\n' → promptAlt (s.drop (i + 1)) = true →
      promptTest s = true := by
  intro s
  induction s with
  | nil => intro i h1 h2; simp at h1
  | cons c rest ih =>
    intro i h1 h2
    unfold promptTest promptMatchIndex
    split
    · rfl
    · rename_i hc
      match i with
      | 0 =>
        simp only [List.getElem?_cons_zero, Option.some.injEq] at h1
        simp only [List.drop_succ_cons, List.drop_zero] at h2
        exact absurd (by simp [h1, h2]) hc
      | j + 1 =>
        have := ih (by simpa using h1) (by simpa using h2)
        unfold promptTest at this
        simpa using this

theorem start_error_iff (cfg : Config) (env : StartEnv) (s : SessState) :
    ((start cfg env s).1.error).isSome = !(start cfg env s).1.success := by
  unfold start
  split
  · rfl
  · split
    · rfl
    · split <;> rfl

theorem start_output_empty (cfg : Config) (env : StartEnv) (s : SessState) :
    (start cfg env s).1.output = [] := by
  unfold start
  split
  · rfl
  · split
    · rfl
    · split <;> rfl

theorem start_success_state (cfg : Config) (env : StartEnv) (s : SessState)
    (h : (start cfg env s).1.success = true) :
    (start cfg env s).1 = ⟨true, [], none⟩ ∧
    (start cfg env s).2 = ⟨some (), [], false⟩ := by
  rcases hb : buildSpawnArgs cfg env.discoveredPod with _ | args <;>
    rcases hf : env.spawnFault with _ | msg <;>
    rcases hr : env.bootReady <;>
    simp_all [start]

theorem start_failure_state (cfg : Config) (env : StartEnv) (s : SessState)
    (h : (start cfg env s).1.success = false) :
    (start cfg env s).2.process = s.process ∨ (start cfg env s).2.process = none := by
  rcases hb : buildSpawnArgs cfg env.discoveredPod with _ | args <;>
    rcases hf : env.spawnFault with _ | msg <;>
    rcases hr : env.bootReady <;>
    simp_all [start]

theorem start_failure_flag (cfg : Config) (env : StartEnv) (s : SessState)
    (h : (start cfg env s).1.success = false) :
    (start cfg env s).2.hasRestarted = s.hasRestarted := by
  rcases hb : buildSpawnArgs cfg env.discoveredPod with _ | args <;>
    rcases hf : env.spawnFault with _ | msg <;>
    rcases hr : env.bootReady <;>
    simp_all [start]

theorem executeCommand_error_iff (cfg : Config) (env : CmdEnv) (s : SessState) :
    ((executeCommand cfg env s).1.error).isSome = !(executeCommand cfg env s).1.success := by
  unfold executeCommand
  split
  · rfl
  · split
    · dsimp only
      split <;> simp_all
    · dsimp only
      split
      · split <;> rfl
      · rfl

theorem executeCommand_timeout_unfold (cfg : Config) (renv : StartEnv) (pbuf b : Str) :
    executeCommand cfg ⟨.timesOut pbuf, renv⟩ ⟨some (), b, false⟩ =
      (let rs := start cfg renv ⟨none, pbuf, true⟩
       if rs.1.success then
         (⟨false, rs.2.buffer, some (timedOutRestartedMsg cfg)⟩, rs.2)
       else
         (⟨false, rs.2.buffer, some (timedOutMsg cfg)⟩, rs.2)) := rfl

theorem executeCommand_timeout_noretry (cfg : Config) (renv : StartEnv) (pbuf b : Str) :
    executeCommand cfg ⟨.timesOut pbuf, renv⟩ ⟨some (), b, true⟩ =
      (⟨false, pbuf, some (timedOutMsg cfg)⟩, ⟨none, pbuf, true⟩) := rfl

theorem start_nospawn_state (cfg : Config) (env : StartEnv) (s : SessState)
    (h : buildSpawnArgs cfg env.discoveredPod = none ∨ env.spawnFault.isSome = true) :
    (start cfg env s).2 = s ∧ (start cfg env s).1.success = false := by
  rcases hb : buildSpawnArgs cfg env.discoveredPod with _ | args <;>
    rcases hf : env.spawnFault with _ | msg <;> simp_all [start]

/-- C1 counterexample: a Ready session suffers two consecutive command
timeouts with no intervening successful command, both restart spawns
succeeding.  Contrary to the claim, the second timed-out call also
returns the "Session restarted" failure (its message contains
"restarted") and leaves a live handle, because `start()` clears the
restart-consumed flag on the restart spawn itself (src/index.ts:113), not
only on cold spawns.  The scenario is realizable: neither partial buffer
contains a prompt (so the waits time out) and the restart boot output
does (so the restarts reach Ready). -/
theorem restart_once_counterexample :
    (let env1 : ExecEnv := ⟨unusedStart, ⟨.timesOut "partial1".toList, spawnOk⟩⟩
     let env2 : ExecEnv := ⟨unusedStart, ⟨.timesOut "partial2".toList, spawnOk⟩⟩
     let r1 := exec cfgDocker env1 readyState
     let r2 := exec cfgDocker env2 r1.2
     r1.1.success = false ∧
     r1.1.error = some "Command timed out after 60s. Session restarted." ∧
     r1.2.process = some () ∧
     r2.1.success = false ∧
     r2.1.error = some "Command timed out after 60s. Session restarted." ∧
     containsStr "restarted".toList
       "Command timed out after 60s. Session restarted.".toList = true ∧
     r2.2.process = some () ∧
     detectorComplete "partial1".toList = false ∧
     detectorComplete "partial2".toList = false ∧
     detectorComplete spawnOk.bootBuffer = true) := by decide

/-- C1 amended: a timed-out command on a live session with a clear
restart flag always attempts a restart; if that restart reaches Ready
the call returns the "Session restarted" failure and leaves the session
Ready with the flag clear again (so a following timeout behaves the same
way); the harder failure (plain timeout message) with an Empty session
occurs exactly when the restart attempt fails, leaving the flag set.
The flag is cleared by every successful spawn, cold or restart. -/
theorem restart_policy_amended (cfg : Config) (s : SessState) (pbuf : Str)
    (renv : StartEnv) (hproc : s.process = some ()) (hflag : s.hasRestarted = false) :
    (let rs := start cfg renv ⟨none, pbuf, true⟩
     let r := executeCommand cfg ⟨.timesOut pbuf, renv⟩ s
     (rs.1.success = true →
       r.1 = ⟨false, [], some (timedOutRestartedMsg cfg)⟩ ∧
       r.2 = ⟨some (), [], false⟩) ∧
     (rs.1.success = false →
       r.1 = ⟨false, rs.2.buffer, some (timedOutMsg cfg)⟩ ∧
       r.2.process = none ∧ r.2.hasRestarted = true)) ∧
    (∀ env' s'', (start cfg env' s'').1.success = true →
      (start cfg env' s'').2.hasRestarted = false) := by
  obtain ⟨p, b, f⟩ := s
  obtain rfl : p = some () := hproc
  obtain rfl : f = false := hflag
  refine ⟨?_, ?_⟩
  · dsimp only
    rw [executeCommand_timeout_unfold]
    dsimp only
    constructor
    · intro hsucc
      have hs := start_success_state cfg renv ⟨none, pbuf, true⟩ hsucc
      rw [if_pos hsucc, hs.2]
      exact ⟨rfl, rfl⟩
    · intro hfail
      rw [if_neg (by simp [hfail])]
      refine ⟨rfl, ?_, ?_⟩
      · rcases start_failure_state cfg renv ⟨none, pbuf, true⟩ hfail with h | h <;>
          simpa using h
      · simpa using start_failure_flag cfg renv ⟨none, pbuf, true⟩ hfail
  · intro env' s'' h
    rw [(start_success_state cfg env' s'' h).2]

/-- C1 witness: the amended restart policy instantiated on the default
docker configuration, a Ready session and a timed-out command whose
restart succeeds. -/
theorem restart_policy_amended_witness :
    ((start cfgDocker spawnOk ⟨none, "partial1".toList, true⟩).1.success = true →
      (executeCommand cfgDocker ⟨.timesOut "partial1".toList, spawnOk⟩ readyState).1 =
        ⟨false, [], some (timedOutRestartedMsg cfgDocker)⟩ ∧
      (executeCommand cfgDocker ⟨.timesOut "partial1".toList, spawnOk⟩ readyState).2 =
        ⟨some (), [], false⟩) ∧
    ((start cfgDocker spawnOk ⟨none, "partial1".toList, true⟩).1.success = false →
      (executeCommand cfgDocker ⟨.timesOut "partial1".toList, spawnOk⟩ readyState).1 =
        ⟨false, (start cfgDocker spawnOk ⟨none, "partial1".toList, true⟩).2.buffer,
          some (timedOutMsg cfgDocker)⟩ ∧
      (executeCommand cfgDocker ⟨.timesOut "partial1".toList, spawnOk⟩
        readyState).2.process = none ∧
      (executeCommand cfgDocker ⟨.timesOut "partial1".toList, spawnOk⟩
        readyState).2.hasRestarted = true) :=
  (restart_policy_amended cfgDocker readyState "partial1".toList spawnOk rfl rfl).1

/-- C2 counterexample: a command times out with partial output
"SELECT 1" accumulated, and the session is killed and successfully
restarted before the result is returned.  Contrary to the claim, the
result's output is empty — `start()` resets the buffer
(src/index.ts:80,112) before `executeCommand` reads `this.buffer` for the
result — so the partial progress is discarded on exactly the path the
claim singles out. -/
theorem partial_output_counterexample :
    (let r := exec cfgDocker ⟨unusedStart, ⟨.timesOut "SELECT 1".toList, spawnOk⟩⟩
       readyState
     r.1.success = false ∧
     r.1.output = [] ∧
     containsStr "SELECT 1".toList r.1.output = false ∧
     detectorComplete "SELECT 1".toList = false ∧
     detectorComplete spawnOk.bootBuffer = true) := by decide

/-- C2 amended: a timed-out command's result carries as output whatever
`this.buffer` holds after the restart attempt: the partial output when no
restart spawned (flag already consumed, or the restart failed before the
spawn replaced the buffer); the restarted session's freshly cleared
buffer (empty) when the restart succeeded; and every `start()` failure
result itself carries empty output, so boot progress of a failed startup
is likewise not returned. -/
theorem failure_output_amended (cfg : Config) (s : SessState) (pbuf : Str)
    (renv : StartEnv) (hproc : s.process = some ()) :
    (s.hasRestarted = true →
      (executeCommand cfg ⟨.timesOut pbuf, renv⟩ s).1.output = pbuf) ∧
    (s.hasRestarted = false →
      (let rs := start cfg renv ⟨none, pbuf, true⟩
       (executeCommand cfg ⟨.timesOut pbuf, renv⟩ s).1.output = rs.2.buffer ∧
       (buildSpawnArgs cfg renv.discoveredPod = none ∨ renv.spawnFault.isSome = true →
         (executeCommand cfg ⟨.timesOut pbuf, renv⟩ s).1.output = pbuf) ∧
       (rs.1.success = true →
         (executeCommand cfg ⟨.timesOut pbuf, renv⟩ s).1.output = []))) ∧
    (∀ env' s'', (start cfg env' s'').1.output = []) := by
  obtain ⟨p, b, f⟩ := s
  obtain rfl : p = some () := hproc
  refine ⟨?_, ?_, fun env' s'' => start_output_empty cfg env' s''⟩
  · intro hf
    obtain rfl : f = true := hf
    rw [executeCommand_timeout_noretry]
  · intro hf
    obtain rfl : f = false := hf
    dsimp only
    have hbase :
        (executeCommand cfg ⟨.timesOut pbuf, renv⟩ ⟨some (), b, false⟩).1.output =
          (start cfg renv ⟨none, pbuf, true⟩).2.buffer := by
      rw [executeCommand_timeout_unfold]
      dsimp only
      split <;> rfl
    refine ⟨hbase, ?_, ?_⟩
    · intro h
      rw [hbase, (start_nospawn_state cfg renv ⟨none, pbuf, true⟩ h).1]
    · intro hsucc
      rw [hbase, (start_success_state cfg renv ⟨none, pbuf, true⟩ hsucc).2]

/-- C2 witness: the amended output behavior at concrete inputs — a
timeout with the restart flag consumed returns the partial buffer, and a
timeout whose restart succeeds returns empty output. -/
theorem failure_output_amended_witness :
    (executeCommand cfgDocker ⟨.timesOut "SELECT 1".toList, spawnBoom⟩
      ⟨some (), [], true⟩).1.output = "SELECT 1".toList ∧
    ((start cfgDocker spawnOk ⟨none, "SELECT 1".toList, true⟩).1.success = true →
      (executeCommand cfgDocker ⟨.timesOut "SELECT 1".toList, spawnOk⟩
        readyState).1.output = []) :=
  ⟨(failure_output_amended cfgDocker ⟨some (), [], true⟩ "SELECT 1".toList spawnBoom
      rfl).1 rfl,
   ((failure_output_amended cfgDocker readyState "SELECT 1".toList spawnOk rfl).2.1
      rfl).2.2⟩

/-- C3 counterexample: with the ceiling configured to 0, appending "a"
to an empty buffer exceeds the ceiling, yet the buffer is left at length
1, not truncated to the ceiling size — `buffer.slice(-0)` is
`buffer.slice(0)`, the whole string, in JS. -/
theorem truncation_counterexample :
    (([] : Str) ++ "a".toList).length > 0 ∧
    bufferAppend 0 [] "a".toList = "a".toList ∧
    ¬((bufferAppend 0 [] "a".toList).length = 0) := by decide

/-- C3 amended: for every positive ceiling, whenever the accumulated
content exceeds it the buffer is truncated to exactly the ceiling size
and is the trailing suffix of the accumulated content (the most recently
appended bytes, never the oldest); content within the ceiling is kept
whole; a zero ceiling never truncates.  Truncation is a total operation
— no error is raised. -/
theorem truncation_amended (maxOutput : Nat) (buf chunk : Str)
    (hpos : 0 < maxOutput) (hover : (buf ++ chunk).length > maxOutput) :
    bufferAppend maxOutput buf chunk =
      (buf ++ chunk).drop ((buf ++ chunk).length - maxOutput) ∧
    (bufferAppend maxOutput buf chunk).length = maxOutput ∧
    bufferAppend maxOutput buf chunk <:+ buf ++ chunk ∧
    (∀ b c : Str, ¬((b ++ c).length > maxOutput) → bufferAppend maxOutput b c = b ++ c) ∧
    (∀ b c : Str, bufferAppend 0 b c = b ++ c) := by
  have hz : ¬(maxOutput = 0) := by omega
  refine ⟨?_, ?_, ?_, ?_, ?_⟩
  · unfold bufferAppend jsSliceLast
    dsimp only
    rw [if_pos hover, if_neg hz]
  · unfold bufferAppend jsSliceLast
    dsimp only
    rw [if_pos hover, if_neg hz, List.length_drop]
    omega
  · unfold bufferAppend jsSliceLast
    dsimp only
    rw [if_pos hover, if_neg hz]
    exact List.drop_suffix _ _
  · intro b c h
    unfold bufferAppend
    dsimp only
    rw [if_neg h]
  · intro b c
    unfold bufferAppend jsSliceLast
    dsimp only
    split
    · rw [if_pos rfl]
    · rfl

/-- C3 witness: appending "cdefgh" to "ab" under ceiling 5 keeps exactly
the trailing 5 characters "defgh". -/
theorem truncation_amended_witness :
    0 < 5 ∧ (("ab".toList ++ "cdefgh".toList : Str)).length > 5 ∧
    bufferAppend 5 "ab".toList "cdefgh".toList = "defgh".toList ∧
    (bufferAppend 5 "ab".toList "cdefgh".toList).length = 5 := by
  have h := truncation_amended 5 "ab".toList "cdefgh".toList (by decide) (by decide)
  exact ⟨by decide, by decide, by rw [h.1]; decide, h.2.1⟩

/-- C4 counterexample: the character classes `[^)]+` (numbered-IRB
shape) and `[^>]+` (bracketed shape) span newlines, so a prompt match
can begin on an earlier line.  The texts `"x\nirb(a\nb):1:0>"` and
`"x\n[1] a\nb> "` are judged complete by the detector although their
final lines — `"b):1:0>"`, ending in `'>'`, and `"b> "` — are not
prompt shapes, refuting the claim's universal negative. -/
theorem prompt_final_line_counterexample :
    detectorComplete "x\nirb(a\nb):1:0>".toList = true ∧
    splitLines "x\nirb(a\nb):1:0>".toList =
      ["x".toList, "irb(a".toList, "b):1:0>".toList] ∧
    "b):1:0>".toList.getLast? = some '>' ∧
    promptAlt "b):1:0>".toList = false ∧
    detectorComplete "x\n[1] a\nb> ".toList = true ∧
    splitLines "x\n[1] a\nb> ".toList =
      ["x".toList, "[1] a".toList, "b> ".toList] ∧
    promptAlt "b> ".toList = false := by decide

/-- C4 amended: after ANSI stripping, each of the five example texts
(a newline followed by `irb(main):001:0> `, `irb(main):002:0* `,
`[1] pry(main)> `, `pry(main)> ` or `user@host(main)> `) is judged
complete, and the detector judges a text complete exactly when some
newline in it is followed by one of the three `PROMPT_REGEX` shapes
anchored at end-of-text.  Because the numbered-IRB and bracketed shapes
may span newlines, such a match can begin on an earlier line, so a
`'>'`-final last line does not by itself preclude completeness; texts
with no newline-plus-shape suffix — including the `'>'`-final examples
`db> `, `1 > `, `foo>` and a bare `> ` — are not judged complete. -/
theorem prompt_shape_recognition_amended :
    detectorComplete "=> 6\nirb(main):001:0> ".toList = true ∧
    detectorComplete "ok\nirb(main):002:0* ".toList = true ∧
    detectorComplete "=> 6\n[1] pry(main)> ".toList = true ∧
    detectorComplete "=> 6\npry(main)> ".toList = true ∧
    detectorComplete "=> 6\nuser@host(main)> ".toList = true ∧
    (∀ s : Str, detectorComplete s = true ↔
      ∃ i, (stripAnsi s)[i]? = some '\n' ∧
        (matchIrbPrompt ((stripAnsi s).drop (i + 1)) = true ∨
         matchBracketPrompt ((stripAnsi s).drop (i + 1)) = true ∨
         matchCustomPrompt ((stripAnsi s).drop (i + 1)) = true)) ∧
    detectorComplete "=> 6\ndb> ".toList = false ∧
    detectorComplete "rows\n1 > ".toList = false ∧
    detectorComplete "a\nfoo>".toList = false ∧
    detectorComplete "x\n> ".toList = false := by
  refine ⟨by decide, by decide, by decide, by decide, by decide, ?_,
    by decide, by decide, by decide, by decide⟩
  intro s
  constructor
  · intro h
    obtain ⟨i, hi⟩ := promptTest_some h
    obtain ⟨h1, h2⟩ := promptMatchIndex_sound hi
    refine ⟨i, h1, ?_⟩
    have := (by simpa [promptAlt, Bool.or_eq_true] using h2 :
      (matchIrbPrompt ((stripAnsi s).drop (i + 1)) = true ∨
        matchBracketPrompt ((stripAnsi s).drop (i + 1)) = true) ∨
      matchCustomPrompt ((stripAnsi s).drop (i + 1)) = true)
    tauto
  · rintro ⟨i, h1, h2⟩
    exact promptMatchIndex_isSome h1
      (by simpa [promptAlt, Bool.or_eq_true] using (by tauto :
        (matchIrbPrompt ((stripAnsi s).drop (i + 1)) = true ∨
          matchBracketPrompt ((stripAnsi s).drop (i + 1)) = true) ∨
        matchCustomPrompt ((stripAnsi s).drop (i + 1)) = true))

/-- C4 witness: the completeness characterization instantiated in both
directions on a complete buffer. -/
theorem prompt_shape_recognition_amended_witness :
    (∃ i, (stripAnsi "x\npry(main)> ".toList)[i]? = some '\n' ∧
      (matchIrbPrompt ((stripAnsi "x\npry(main)> ".toList).drop (i + 1)) = true ∨
       matchBracketPrompt ((stripAnsi "x\npry(main)> ".toList).drop (i + 1)) = true ∨
       matchCustomPrompt ((stripAnsi "x\npry(main)> ".toList).drop (i + 1)) = true)) ∧
    detectorComplete "x\npry(main)> ".toList = true :=
  ⟨(prompt_shape_recognition_amended.2.2.2.2.2.1 "x\npry(main)> ".toList).mp
     (by decide),
   (prompt_shape_recognition_amended.2.2.2.2.2.1 "x\npry(main)> ".toList).mpr
     ⟨1, by decide, by decide⟩⟩

/-- C5 (confirmed): a completed command's result is a failure with the
"Ruby error (see output)" error exactly when the extracted output begins
a line with one of the seven fixed exception names or contains a line
starting with the traceback header — lines in the ECMAScript multiline
sense, opened by any line terminator, so a CR-introduced
`SyntaxError` line also classifies as an error — and a success with no
error otherwise; concretely, `SyntaxError: unexpected end-of-input`
yields `success = false` and `=> 42` yields `success = true`. -/
theorem ruby_error_classification :
    (∀ out : Str, hasRubyError out = true ↔
      ∃ ln ∈ splitLines out,
        (∃ e ∈ rubyErrorNames, startsWith e ln = true) ∨
        startsWith tracebackHeader ln = true) ∧
    (∀ cfg env s buf, s.process = some () → env.outcome = .completes buf →
      (executeCommand cfg env s).1.success =
        !hasRubyError (extractResponse (stripAnsi buf)) ∧
      (executeCommand cfg env s).1.error =
        (if hasRubyError (extractResponse (stripAnsi buf))
         then some "Ruby error (see output)" else none)) ∧
    (executeCommand cfgDocker
      ⟨.completes "SyntaxError: unexpected end-of-input\nirb(main):001:0> ".toList,
        spawnOk⟩ readyState).1.success = false ∧
    (executeCommand cfgDocker
      ⟨.completes "SyntaxError: unexpected end-of-input\nirb(main):001:0> ".toList,
        spawnOk⟩ readyState).1.error = some "Ruby error (see output)" ∧
    (executeCommand cfgDocker
      ⟨.completes "=> 42\nirb(main):001:0> ".toList, spawnOk⟩ readyState).1.success
      = true ∧
    (executeCommand cfgDocker
      ⟨.completes "=> 42\nirb(main):001:0> ".toList, spawnOk⟩ readyState).1.error
      = none ∧
    (executeCommand cfgDocker
      ⟨.completes "a\rSyntaxError: x\nirb(main):001:0> ".toList, spawnOk⟩
      readyState).1.success = false ∧
    splitLines "a\rSyntaxError: x".toList =
      ["a".toList, "SyntaxError: x".toList] := by
  refine ⟨?_, ?_, by decide, by decide, by decide, by decide, by decide, by decide⟩
  · intro out
    simp [hasRubyError, List.any_eq_true, Bool.or_eq_true]
  · intro cfg env s buf hproc houtcome
    obtain ⟨p, b, f⟩ := s
    simp only at hproc
    obtain ⟨outc, renv⟩ := env
    simp only at houtcome
    subst hproc houtcome
    constructor
    · simp [executeCommand]
    · simp [executeCommand]

/-- C5 witness: the classification equations instantiated on a
completed `NameError` buffer. -/
theorem ruby_error_classification_witness :
    (executeCommand cfgDocker
      ⟨.completes "NameError: undefined local variable\nirb(main):001:0> ".toList,
        spawnOk⟩ readyState).1.success =
      !hasRubyError (extractResponse
        (stripAnsi "NameError: undefined local variable\nirb(main):001:0> ".toList)) :=
  (ruby_error_classification.2.1 cfgDocker
    ⟨.completes "NameError: undefined local variable\nirb(main):001:0> ".toList, spawnOk⟩
    readyState
    "NameError: undefined local variable\nirb(main):001:0> ".toList rfl rfl).1

/-- C6 (confirmed): on every path through `exec` — successful command,
interpreter error, startup failure, timeout with or without restart,
crash — the returned result's `error` field is present exactly when
`success` is false. -/
theorem exec_result_error_iff_not_success (cfg : Config) (env : ExecEnv) (s : SessState) :
    ((exec cfg env s).1.error).isSome = !(exec cfg env s).1.success := by
  unfold exec
  split
  · dsimp only
    split
    · exact start_error_iff ..
    · exact executeCommand_error_iff ..
  · exact executeCommand_error_iff ..

/-- C7 (confirmed): on the ANSI-stripped buffer, when `PROMPT_REGEX`
matches, the match starts at the leftmost newline whose tail is a prompt
shape, and the extracted response is exactly the characters before that
newline; with no match the whole cleaned text is returned. -/
theorem response_extraction (buf : Str) :
    (∀ i, promptMatchIndex (stripAnsi buf) = some i →
      extractResponse (stripAnsi buf) = (stripAnsi buf).take i ∧
      (stripAnsi buf)[i]? = some '\n' ∧
      promptAlt ((stripAnsi buf).drop (i + 1)) = true ∧
      (∀ j, j < i →
        ¬((stripAnsi buf)[j]? = some '\n' ∧
          promptAlt ((stripAnsi buf).drop (j + 1)) = true))) ∧
    (promptMatchIndex (stripAnsi buf) = none →
      extractResponse (stripAnsi buf) = stripAnsi buf) := by
  constructor
  · intro i hi
    refine ⟨?_, (promptMatchIndex_sound hi).1, (promptMatchIndex_sound hi).2,
      promptMatchIndex_minimal hi⟩
    unfold extractResponse
    rw [hi]
  · intro h
    unfold extractResponse
    rw [h]

/-- C7 witness: extraction instantiated on `"=> 6\npry(main)> "`, whose
prompt match starts at index 4. -/
theorem response_extraction_witness :
    extractResponse (stripAnsi "=> 6\npry(main)> ".toList) =
      (stripAnsi "=> 6\npry(main)> ".toList).take 4 ∧
    (stripAnsi "=> 6\npry(main)> ".toList)[4]? = some '\n' :=
  let h := (response_extraction "=> 6\npry(main)> ".toList).1 4 (by decide)
  ⟨h.1, h.2.1⟩

/-- C8 counterexample: an override of 0 does not replace the configured
timeout (JS truthiness of `if (timeout)`), and when the awaited call
throws, the configured value is not restored (the restore statement is
sequenced after the `await`, with no try/finally). -/
theorem timeout_override_counterexample :
    handlerTimeouts 60000 (some 0) false = (60000, 60000) ∧ ¬((0 : Nat) = 60000) ∧
    handlerTimeouts 60000 (some 5000) true = (5000, 5000) ∧ ¬((5000 : Nat) = 60000) := by
  decide

/-- C8 amended: a nonzero override replaces the configured per-command
timeout for that call only, and the configured value is restored when
the call returns (success or failure alike); if the call throws, the
override is left in place; a zero or absent override leaves the
configured timeout in force throughout. -/
theorem timeout_override_amended (configured t : Nat) (ht : ¬(t = 0)) :
    (∀ execFaults, (handlerTimeouts configured (some t) execFaults).1 = t) ∧
    (handlerTimeouts configured (some t) false).2 = configured ∧
    (handlerTimeouts configured (some t) true).2 = t ∧
    (∀ execFaults, handlerTimeouts configured (some 0) execFaults =
      (configured, configured)) ∧
    (∀ execFaults, handlerTimeouts configured none execFaults =
      (configured, configured)) := by
  refine ⟨?_, ?_, ?_, ?_, ?_⟩ <;>
    first
      | (intro f; cases f <;> simp [handlerTimeouts, ht])
      | simp [handlerTimeouts, ht]

/-- C8 witness: the override behavior at the default 60 s configuration
and a 5 s override. -/
theorem timeout_override_amended_witness :
    ¬((5000 : Nat) = 0) ∧
    (handlerTimeouts 60000 (some 5000) false).1 = 5000 ∧
    (handlerTimeouts 60000 (some 5000) false).2 = 60000 ∧
    (handlerTimeouts 60000 (some 5000) true).2 = 5000 := by
  have h := timeout_override_amended 60000 5000 (by decide)
  exact ⟨by decide, h.1 false, h.2.1, h.2.2.1⟩

/-- C10 (confirmed): the close handler nulls the subprocess handle on
every close event — the exit code, zero included, only decides whether a
diagnostic is logged — and an `exec` call on a session with an absent
handle runs the lazy `start` sequence (returning its failure unchanged,
or running the command against the fresh session) rather than writing
to a dead process. -/
theorem close_handler_invalidates (code : Option Int) (s : SessState) :
    (handleClose code s).1.process = none ∧
    ((handleClose code s).2 = true ↔ ¬(code = some 0)) ∧
    (∀ cfg env s', s'.process = none →
      exec cfg env s' =
        (let rs := start cfg env.lazyStart s'
         if !rs.1.success then rs else executeCommand cfg env.cmd rs.2)) := by
  refine ⟨rfl, by simp [handleClose], ?_⟩
  intro cfg env s' h
  unfold exec
  rw [h]

/-- C10 witness: a clean exit (code 0) still invalidates the handle, and
a subsequent `exec` on the emptied session runs the lazy start. -/
theorem close_handler_invalidates_witness :
    (handleClose (some 0) readyState).1.process = none ∧
    ((handleClose (some 0) readyState).2 = true ↔ ¬((some 0 : Option Int) = some 0)) ∧
    exec cfgDocker ⟨spawnBoom, ⟨.completes [], spawnOk⟩⟩ ⟨none, [], false⟩ =
      (let rs := start cfgDocker spawnBoom ⟨none, [], false⟩
       if !rs.1.success then rs
       else executeCommand cfgDocker ⟨.completes [], spawnOk⟩ rs.2) :=
  ⟨(close_handler_invalidates (some 0) readyState).1,
   (close_handler_invalidates (some 0) readyState).2.1,
   (close_handler_invalidates (some 0) readyState).2.2 cfgDocker
     ⟨spawnBoom, ⟨.completes [], spawnOk⟩⟩ ⟨none, [], false⟩ rfl⟩
